import Mathlib

/-!
Verification of the embedded output encoding core of `darkpicolib`.

Strings from the Rust source (`&str`) are modelled as `List Char`; byte
lengths and byte indexing of the UTF-8 representation are modelled
explicitly (`utf8Len`, `byteLen`, `splitAtByteBoundary`).  A Rust slice
`&s[0..n]` that would panic (byte `n` is not a character boundary, or is
out of bounds) is modelled as `Option.none`.  Machine integers are `Nat`
with explicit `% 2^32` at the places where the source performs an
`as u32` cast of a wider value.
-/

deriving instance DecidableEq for Except

namespace DarkPicoLib

/-- Rust `char::is_ascii_graphic`: the printable ASCII range `'!'..='~'`. -/
def isAsciiGraphicChar (c : Char) : Bool :=
  0x21 ≤ c.toNat && c.toNat ≤ 0x7E

/-- The display character predicate used by both character-display
validators: `c.is_ascii_graphic() || c == ' '`. -/
def isDisplayChar (c : Char) : Bool :=
  isAsciiGraphicChar c || c = ' '

/-- Number of bytes of the UTF-8 encoding of a character. -/
def utf8Len (c : Char) : Nat :=
  if c.toNat < 0x80 then 1
  else if c.toNat < 0x800 then 2
  else if c.toNat < 0x10000 then 3
  else 4

/-- Byte length of the UTF-8 encoding of a string (Rust `str::len`). -/
def byteLen (s : List Char) : Nat :=
  (s.map utf8Len).sum

/-- Rust byte slicing `(&s[0..n], &s[n..])`.  Returns `none` when byte
index `n` is not a character boundary or lies past the end of the
string; Rust panics in exactly those cases. -/
def splitAtByteBoundary (n : Nat) (s : List Char) : Option (List Char × List Char) :=
  if n = 0 then some ([], s)
  else
    match s with
    | [] => none
    | c :: rest =>
      if utf8Len c ≤ n then
        (splitAtByteBoundary (n - utf8Len c) rest).map (fun p => (c :: p.1, p.2))
      else none

/-- Rust `str::lines` strips one trailing `'\r'` from each produced line. -/
def stripTrailingCr (l : List Char) : List Char :=
  if l.getLast? = some '\r' then l.dropLast else l

/-- Rust `str::lines`: split on `'\n'`, drop the final empty segment
produced by a trailing `'\n'`, and strip a trailing `'\r'` from each
line.  `"".lines()` is empty. -/
def rustLines (s : List Char) : List (List Char) :=
  if s = [] then []
  else
    let parts := s.splitOn '\n'
    let parts := if s.getLast? = some '\n' then parts.dropLast else parts
    parts.map stripTrailingCr

/-- Rust `str::split('\n')`: all segments, including empty ones
(`"".split('\n')` yields one empty segment). -/
def splitNl (s : List Char) : List (List Char) :=
  s.splitOn '\n'

/-- Error preview: `value.chars().take(64).collect()`. -/
def preview (s : List Char) : List Char :=
  s.take 64

/-! ## `src/peripherals/lcd.rs` -/

/-- `LcdStringError` of `lcd.rs` (the payload `content` is the
64-character preview). -/
inductive LcdStringError where
  | tooLong (content : List Char) (actualLength maxLength : Nat)
  | tooManyLines (content : List Char) (actualLines maxLines : Nat)
  | containsInvalidCharacters (content : List Char) (invalidChar : Char)
deriving DecidableEq, Repr

/-- `LcdString` wraps a validated line (`heapless::String<16>`). -/
structure LcdString where
  chars : List Char
deriving DecidableEq, Repr

/-- `LcdString::try_from(&str)`.  NOTE: `let len = value.len()` in the
source is the BYTE length of the string, and so is the capacity check of
`heapless::String<16>::push_str` (a 16-byte buffer). -/
def LcdString.tryFrom (value : List Char) : Except LcdStringError LcdString :=
  let len := byteLen value
  if 16 < len then
    .error (.tooLong (preview value) len 16)
  else
    match value.find? (fun c => !(isDisplayChar c)) with
    | some c => .error (.containsInvalidCharacters (preview value) c)
    | none =>
      if 16 < byteLen value then
        .error (.tooLong (preview value) len 16)
      else
        .ok ⟨value⟩

/-- `LcdContent`: one optional validated string per display row. -/
structure LcdContent where
  line1 : Option LcdString := none
  line2 : Option LcdString := none
deriving DecidableEq, Repr

/-- `LcdContent::try_from(&str)`.  The result is `none` when the source
panics: in the 17..=32 byte branch the source slices `&value[0..16]` and
`&value[16..]` at BYTE index 16, which panics when byte 16 is not a
character boundary. -/
def LcdContent.tryFrom (value : List Char) : Option (Except LcdStringError LcdContent) :=
  if value = [] then some (.ok {})
  else if '\n' ∈ value then
    let linesCount := (rustLines value).length
    if 2 < linesCount then
      some (.error (.tooManyLines (preview value) linesCount 2))
    else
      let line1Str := ((rustLines value).getD 0 [])
      let line2Str := ((rustLines value).getD 1 [])
      match LcdString.tryFrom line1Str with
      | .error e => some (.error e)
      | .ok line1 =>
        match LcdString.tryFrom line2Str with
        | .error e => some (.error e)
        | .ok line2 => some (.ok { line1 := some line1, line2 := some line2 })
  else
    let len := byteLen value
    if len ≤ 16 then
      match LcdString.tryFrom value with
      | .error e => some (.error e)
      | .ok line1 => some (.ok { line1 := some line1, line2 := none })
    else if len ≤ 32 then
      match splitAtByteBoundary 16 value with
      | none => none
      | some (front, back) =>
        match LcdString.tryFrom front with
        | .error e => some (.error e)
        | .ok line1 =>
          match LcdString.tryFrom back with
          | .error e => some (.error e)
          | .ok line2 => some (.ok { line1 := some line1, line2 := some line2 })
    else
      some (.error (.tooLong (preview value) len 32))

/-! ## `src/peripherals/inland_ks0061_i2c_display.rs` -/

def INLAND_KS0061_COLS : Nat := 16
def INLAND_KS0061_ROWS : Nat := 2
def INLAND_KS0061_MAX_CHARS_PER_LINE : Nat := INLAND_KS0061_COLS
def INLAND_KS0061_MAX_CHARS_TOTAL : Nat := INLAND_KS0061_COLS * INLAND_KS0061_ROWS

/-- `InlandKs0061ContentError`. -/
inductive InlandKs0061ContentError where
  | tooLong (content : List Char) (actualLength maxLength : Nat)
  | tooManyLines (content : List Char) (actualLines maxLines : Nat)
  | containsInvalidCharacters (content : List Char) (invalidChar : Char)
deriving DecidableEq, Repr

/-- `InlandKs0061Line` wraps a validated line. -/
structure InlandKs0061Line where
  chars : List Char
deriving DecidableEq, Repr

/-- `InlandKs0061Line::try_from(&str)`.  Unlike `LcdString::try_from`,
`let len = value.chars().count()` counts CHARACTERS; the
`heapless::String<16>::push_str` fallback still checks the 16-BYTE
capacity of the buffer. -/
def InlandKs0061Line.tryFrom (value : List Char) :
    Except InlandKs0061ContentError InlandKs0061Line :=
  let len := value.length
  if INLAND_KS0061_MAX_CHARS_PER_LINE < len then
    .error (.tooLong (preview value) len INLAND_KS0061_MAX_CHARS_PER_LINE)
  else
    match value.find? (fun c => !(isDisplayChar c)) with
    | some c => .error (.containsInvalidCharacters (preview value) c)
    | none =>
      if 16 < byteLen value then
        .error (.tooLong (preview value) len INLAND_KS0061_MAX_CHARS_PER_LINE)
      else
        .ok ⟨value⟩

/-- `InlandKs0061Content`. -/
structure InlandKs0061Content where
  line1 : Option InlandKs0061Line := none
  line2 : Option InlandKs0061Line := none
deriving DecidableEq, Repr

/-- `InlandKs0061Content::try_from(&str)`.  The whole input is scanned
for invalid characters (everything but `'\n'` must be
graphic-or-space) before any splitting, so the later BYTE slicing at
index 16 only ever sees pure-ASCII input.  `none` models a panic of the
byte slicing (proved unreachable below). -/
def InlandKs0061Content.tryFrom (value : List Char) :
    Option (Except InlandKs0061ContentError InlandKs0061Content) :=
  if value = [] then some (.ok {})
  else
    match value.find? (fun c => c ≠ '\n' && !(isDisplayChar c)) with
    | some c => some (.error (.containsInvalidCharacters (preview value) c))
    | none =>
      if '\n' ∈ value then
        let linesCount := (rustLines value).length
        if INLAND_KS0061_ROWS < linesCount then
          some (.error (.tooManyLines (preview value) linesCount INLAND_KS0061_ROWS))
        else
          let line1Str := ((rustLines value).getD 0 [])
          let line2Str := ((rustLines value).getD 1 [])
          match InlandKs0061Line.tryFrom line1Str with
          | .error e => some (.error e)
          | .ok line1 =>
            match InlandKs0061Line.tryFrom line2Str with
            | .error e => some (.error e)
            | .ok line2 => some (.ok { line1 := some line1, line2 := some line2 })
      else
        let len := value.length
        if len ≤ INLAND_KS0061_MAX_CHARS_PER_LINE then
          match InlandKs0061Line.tryFrom value with
          | .error e => some (.error e)
          | .ok line1 => some (.ok { line1 := some line1, line2 := none })
        else if len ≤ INLAND_KS0061_MAX_CHARS_TOTAL then
          match splitAtByteBoundary INLAND_KS0061_MAX_CHARS_PER_LINE value with
          | none => none
          | some (front, back) =>
            match InlandKs0061Line.tryFrom front with
            | .error e => some (.error e)
            | .ok line1 =>
              match InlandKs0061Line.tryFrom back with
              | .error e => some (.error e)
              | .ok line2 => some (.ok { line1 := some line1, line2 := some line2 })
        else
          some (.error (.tooLong (preview value) len INLAND_KS0061_MAX_CHARS_TOTAL))

/-! ## `src/peripherals/inland_sh1106_oled_display.rs` -/

def INLAND_SH1106_MAX_TEXT_LINES : Nat := 10
def INLAND_SH1106_MAX_CHARS_PER_LINE : Nat := 32
def INLAND_SH1106_LOGS_REFRESH_INTERVAL_MS : Nat := 75

/-- `InlandSh1106OledError` (the two transport variants are carried for
completeness; the text path produces only the last two). -/
inductive InlandSh1106OledError where
  | communication
  | pin
  | tooManyLines (actualLines maxLines : Nat)
  | lineTooLong (lineIndex actualChars maxChars : Nat)
deriving DecidableEq, Repr

/-- The validation loop of `InlandSh1106OledDisplay::display_str`: walk
the `split('\n')` segments with a running 1-based `line_count` and the
0-based `enumerate` index, failing at the first over-count or over-long
line.  The count check precedes the length check, exactly as in the
source. -/
def oledValidateLines (lines : List (List Char)) (lineIndex lineCount : Nat) :
    Option InlandSh1106OledError :=
  match lines with
  | [] => none
  | l :: rest =>
    let lineCount := lineCount + 1
    if INLAND_SH1106_MAX_TEXT_LINES < lineCount then
      some (.tooManyLines lineCount INLAND_SH1106_MAX_TEXT_LINES)
    else if INLAND_SH1106_MAX_CHARS_PER_LINE < l.length then
      some (.lineTooLong lineIndex l.length INLAND_SH1106_MAX_CHARS_PER_LINE)
    else
      oledValidateLines rest (lineIndex + 1) lineCount

/-- The accept/segment behaviour of
`InlandSh1106OledDisplay::display_str`: validate the `split('\n')`
segments, then draw exactly those segments, one per text row. -/
def oledDisplayStrCheck (content : List Char) :
    Except InlandSh1106OledError (List (List Char)) :=
  match oledValidateLines (splitNl content) 0 0 with
  | some e => .error e
  | none => .ok (splitNl content)

/-- Contiguous chunks of `n` elements (the last may be shorter):
chunk `i` is `(l.drop (i*n)).take n`. -/
def listChunks (n : Nat) (l : List Char) : List (List Char) :=
  (List.range ((l.length + n - 1) / n)).map (fun i => (l.drop (i * n)).take n)

/-- Modelled from the spec: the content segmentation policy of §4.2
instantiated at an arbitrary geometry (`ROWS`, `COLS`), generalising the
two-row `InlandKs0061Content::try_from` as the claim's reference point:
empty input clears; newline input splits on the separator and fails
`TooManyLines` over the row limit, each line validated against `COLS`
and the display-character predicate; short input goes on row 1; longer
input wraps at each `COLS` boundary; input over `COLS*ROWS` characters
fails `TooLong`. -/
def specContentPolicy (ROWS COLS : Nat) (value : List Char) :
    Except InlandKs0061ContentError (List (List Char)) :=
  if value = [] then .ok []
  else
    match value.find? (fun c => c ≠ '\n' && !(isDisplayChar c)) with
    | some c => .error (.containsInvalidCharacters (preview value) c)
    | none =>
      if '\n' ∈ value then
        let ls := rustLines value
        if ROWS < ls.length then
          .error (.tooManyLines (preview value) ls.length ROWS)
        else
          match ls.find? (fun l => decide (COLS < l.length)) with
          | some l => .error (.tooLong (preview l) l.length COLS)
          | none => .ok ls
      else if value.length ≤ COLS then .ok [value]
      else if value.length ≤ COLS * ROWS then
        .ok (listChunks COLS value)
      else
        .error (.tooLong (preview value) value.length (COLS * ROWS))

/-! ### The throttled log display (`LogsDisplay`) -/

/-- State of `LogsDisplay`: the fixed ten-slot ring (`logs`, `head`,
`count`) and the refresh-throttle flags.  `crate::HeaplessString<32>` is
not under `src/`; modelled from the spec (§4.3, §9) as a fixed-capacity
stack string whose capacity is counted in characters, so pushing the
first 32 characters of a message always succeeds and stores exactly
those characters.  Time (`Instant`) is a `Nat` in milliseconds. -/
structure LogsState where
  logs : List (List Char)
  head : Nat
  count : Nat
  dirty : Bool
  lastRefresh : Option Nat
deriving DecidableEq, Repr

/-- `LogsDisplay::new`: ten empty slots, empty ring, clean state. -/
def LogsState.fresh : LogsState :=
  { logs := List.replicate INLAND_SH1106_MAX_TEXT_LINES []
    head := 0
    count := 0
    dirty := false
    lastRefresh := none }

/-- `LogsDisplay::push_log`: ring insertion with eviction of the oldest
entry once full, storing `msg.chars().take(32)`. -/
def LogsState.pushLog (msg : List Char) (s : LogsState) : LogsState :=
  if s.count < INLAND_SH1106_MAX_TEXT_LINES then
    let idx := (s.head + s.count) % INLAND_SH1106_MAX_TEXT_LINES
    { s with
      logs := s.logs.set idx (msg.take INLAND_SH1106_MAX_CHARS_PER_LINE)
      count := s.count + 1 }
  else
    let idx := s.head
    { s with
      logs := s.logs.set idx (msg.take INLAND_SH1106_MAX_CHARS_PER_LINE)
      head := (s.head + 1) % INLAND_SH1106_MAX_TEXT_LINES }

/-- The rendering view built inside `LogsDisplay::refresh_if_due`: an
array of ten empty lines, the `count` retained entries written
oldest-first starting at index `pad = 10 - count`. -/
def LogsState.renderLines (s : LogsState) : List (List Char) :=
  let pad := INLAND_SH1106_MAX_TEXT_LINES - s.count
  (List.range s.count).foldl
    (fun acc i =>
      acc.set (pad + i) (s.logs.getD ((s.head + i) % INLAND_SH1106_MAX_TEXT_LINES) []))
    (List.replicate INLAND_SH1106_MAX_TEXT_LINES [])

/-- `LogsDisplay::refresh_if_due(force)`.  `now` is the `Instant::now()`
reading at the call and `renderOk` the outcome of the physical
`display_str_arr` transport write.  Returns the new state and whether a
physical render call was made. -/
def LogsState.refreshIfDue (force : Bool) (now : Nat) (renderOk : Bool)
    (s : LogsState) : LogsState × Bool :=
  if !s.dirty then (s, false)
  else
    let blocked :=
      if force then false
      else
        match s.lastRefresh with
        | some lastRefresh =>
          decide (now < lastRefresh + INLAND_SH1106_LOGS_REFRESH_INTERVAL_MS)
        | none => false
    if blocked then (s, false)
    else if renderOk then
      ({ s with dirty := false, lastRefresh := some now }, true)
    else (s, true)

/-- `LogsDisplay::log`: push, mark dirty, attempt a throttled refresh. -/
def LogsState.log (msg : List Char) (now : Nat) (renderOk : Bool)
    (s : LogsState) : LogsState × Bool :=
  LogsState.refreshIfDue false now renderOk { s.pushLog msg with dirty := true }

/-- `LogsDisplay::flush`: forced refresh. -/
def LogsState.flush (now : Nat) (renderOk : Bool) (s : LogsState) :
    LogsState × Bool :=
  LogsState.refreshIfDue true now renderOk s

/-! ## `src/peripherals/servo.rs` -/

/-- Truncating `as u32` cast of a wider value. -/
def u32Mod (n : Nat) : Nat := n % 4294967296

/-- The integer fields of `ServoSpec` (the two `f32` angle fields feed
only the floating-point angle mapper, not the solver). -/
structure ServoSpec where
  frame_us : Nat
  pulse_min_us : Nat
  pulse_max_us : Nat
deriving DecidableEq, Repr

/-- The integer fields of `ServoConfig`.  `dividerBits` is the raw
`FixedU16<U4>` register value `(div_int << 4) | div_frac`. -/
structure ServoConfig where
  top : Nat
  dividerBits : Nat
  tick_hz : Nat
  duty_min : Nat
  duty_max : Nat
deriving DecidableEq, Repr

/-- `us_to_counts`: `counts = (pulse_us * tick_hz + 500_000) / 1_000_000`
(u64), truncated by `as u32`, then clamped to `top`. -/
def usToCounts (pulse_us tick_hz top : Nat) : Nat :=
  min (u32Mod ((pulse_us * tick_hz + 500000) / 1000000)) top

/-- One iteration's tick rate: `clock_hz * 16 / divider_q4` as u32. -/
def iterTick (clock dq : Nat) : Nat :=
  u32Mod (clock * 16 / dq)

/-- One iteration's `top`: `(frame_us * tick_hz / 1_000_000)` with
truncating (floor) u64 division, `saturating_sub(1)`, cast `as u32`. -/
def iterTop (clock frame dq : Nat) : Nat :=
  u32Mod (frame * iterTick clock dq / 1000000 - 1)

/-- The divider-search loop of `ServoConfig::new_precomputed`, with an
explicit structural fuel.  The loop exits as soon as `top` fits u16 or
`divider_q4` has reached `255*16 + 15 = 4095`; since `divider_q4`
increases by one per iteration, `4096 - divider_q4` bounds the number of
iterations, and at fuel 0 (only reachable with `divider_q4 ≥ 4096`) the
exit condition `255*16 + 15 ≤ divider_q4` holds, so returning the
iteration values there coincides with the loop's own exit.  The result
is `(divider_q4, tick_hz, top)`. -/
def solveLoopFuel (clock frame : Nat) : Nat → Nat → Nat × Nat × Nat
  | 0, dq => (dq, iterTick clock dq, iterTop clock frame dq)
  | fuel + 1, dq =>
    if iterTop clock frame dq ≤ 65535 ∨ 255 * 16 + 15 ≤ dq then
      (dq, iterTick clock dq, iterTop clock frame dq)
    else solveLoopFuel clock frame fuel (dq + 1)

/-- The divider-search loop entered at `divider_q4 = dq`. -/
def solveLoop (clock frame dq : Nat) : Nat × Nat × Nat :=
  solveLoopFuel clock frame (4096 - dq) dq

/-- The target tick rate of steps 2 (`1 MHz` preferred, lowered so that
`frame_us * tick_hz ≤ 65536 * 1_000_000`; the u64 quotient is cast
`as u32`). -/
def targetTickHz (frame_us : Nat) : Nat :=
  min 1000000 (max 1 (u32Mod ((65535 + 1) * 1000000 / frame_us)))

/-- The initial Q4 divider of step 3: `clock_hz * 16 / target_tick_hz`
rounded to nearest (u64, cast `as u32`), clamped into
`[16, 255*16 + 15]`. -/
def initialDividerQ4 (pwm_clock_hz target_tick_hz : Nat) : Nat :=
  min (max (u32Mod ((pwm_clock_hz * 16 + target_tick_hz / 2) / target_tick_hz)) 16)
    (255 * 16 + 15)

/-- `ServoConfig::new_precomputed(pwm_clock_hz, spec)`, integer part:
defensive clamps, target tick rate, initial rounded divider, the
divider-search loop, and the duty-count conversions. -/
def ServoConfig.newPrecomputed (pwm_clock_hz : Nat) (spec : ServoSpec) : ServoConfig :=
  let frame_us := max 1 spec.frame_us
  let pulse_min_us := min spec.pulse_min_us (frame_us - 1)
  let pulse_max_us := min (max spec.pulse_max_us (pulse_min_us + 1)) frame_us
  let r := solveLoop pwm_clock_hz frame_us (initialDividerQ4 pwm_clock_hz (targetTickHz frame_us))
  let dq := r.1
  let tick_hz := r.2.1
  let top := r.2.2
  let div_int := (dq / 16) % 256
  let div_frac := dq % 16
  let top_u16 := min top 65535
  { top := top_u16
    dividerBits := div_int * 16 + div_frac
    tick_hz := tick_hz
    duty_min := usToCounts pulse_min_us tick_hz top_u16
    duty_max := usToCounts pulse_max_us tick_hz top_u16 }

/-- Modelled from the spec: §4.5 step 4 derives the period register as
`top = round(frame_us * tick_hz / 1_000_000) − 1`, rounding the tick
count to nearest (ties up, as the solver's other roundings do) before
subtracting one. -/
def specTopRound (frame tick : Nat) : Nat :=
  (frame * tick + 500000) / 1000000 - 1

/-! ## Helper lemmas -/

theorem isDisplayChar_toNat_lt {c : Char} (h : isDisplayChar c = true) :
    c.toNat < 0x80 := by
  simp only [isDisplayChar, isAsciiGraphicChar, Bool.or_eq_true, Bool.and_eq_true,
    decide_eq_true_eq] at h
  rcases h with ⟨-, h⟩ | h
  · omega
  · subst h; decide

theorem utf8Len_of_isDisplayChar {c : Char} (h : isDisplayChar c = true) :
    utf8Len c = 1 := by
  have := isDisplayChar_toNat_lt h
  simp [utf8Len, this]

theorem byteLen_eq_length {s : List Char} (h : ∀ c ∈ s, isDisplayChar c = true) :
    byteLen s = s.length := by
  induction s with
  | nil => rfl
  | cons c r ih =>
    have hc := utf8Len_of_isDisplayChar (h c (by simp))
    have hr := ih (fun x hx => h x (by simp [hx]))
    simp [byteLen] at hr ⊢
    omega

theorem splitAtByteBoundary_of_ascii :
    ∀ {s : List Char} (n : Nat), (∀ c ∈ s, utf8Len c = 1) → n ≤ s.length →
      splitAtByteBoundary n s = some (s.take n, s.drop n) := by
  intro s
  induction s with
  | nil =>
    intro n _ hn
    simp only [List.length_nil, Nat.le_zero] at hn
    subst hn
    rfl
  | cons c r ih =>
    intro n h hn
    match n with
    | 0 => rfl
    | m + 1 =>
      have hc : utf8Len c = 1 := h c (by simp)
      rw [splitAtByteBoundary]
      simp only [if_neg (Nat.succ_ne_zero m), hc]
      rw [if_pos (by omega)]
      have : m + 1 - 1 = m := rfl
      rw [this, ih m (fun x hx => h x (by simp [hx])) (by simpa using hn)]
      simp

theorem find?_not_isDisplayChar_eq_none {s : List Char}
    (h : ∀ c ∈ s, isDisplayChar c = true) :
    s.find? (fun c => !(isDisplayChar c)) = none := by
  rw [List.find?_eq_none]
  intro c hc
  simp [h c hc]

theorem find?_content_precheck_eq_none {s : List Char}
    (h : ∀ c ∈ s, isDisplayChar c = true) :
    s.find? (fun c => c ≠ '\n' && !(isDisplayChar c)) = none := by
  rw [List.find?_eq_none]
  intro c hc
  simp [h c hc]

theorem newline_not_mem {s : List Char} (h : ∀ c ∈ s, isDisplayChar c = true) :
    '\n' ∉ s := by
  intro hm
  have := h _ hm
  simp [isDisplayChar, isAsciiGraphicChar] at this

theorem inlandLine_tryFrom_ok {s : List Char}
    (h : ∀ c ∈ s, isDisplayChar c = true) (hlen : s.length ≤ 16) :
    InlandKs0061Line.tryFrom s = .ok ⟨s⟩ := by
  have hb : byteLen s = s.length := byteLen_eq_length h
  simp only [InlandKs0061Line.tryFrom, INLAND_KS0061_MAX_CHARS_PER_LINE,
    INLAND_KS0061_COLS]
  rw [if_neg (by omega), find?_not_isDisplayChar_eq_none h, if_neg (by omega)]

theorem lcdString_tryFrom_ok {s : List Char}
    (h : ∀ c ∈ s, isDisplayChar c = true) (hlen : s.length ≤ 16) :
    LcdString.tryFrom s = .ok ⟨s⟩ := by
  have hb : byteLen s = s.length := byteLen_eq_length h
  simp only [LcdString.tryFrom]
  rw [if_neg (by omega), find?_not_isDisplayChar_eq_none h, if_neg (by omega)]

theorem utf8Len_one_of_all_valid {s : List Char}
    (h : ∀ c ∈ s, isDisplayChar c = true) : ∀ c ∈ s, utf8Len c = 1 :=
  fun c hc => utf8Len_of_isDisplayChar (h c hc)

theorem ks0061_content_16 {s : List Char}
    (hval : ∀ c ∈ s, isDisplayChar c = true) (hlen : s.length = 16) :
    InlandKs0061Content.tryFrom s = some (.ok ⟨some ⟨s⟩, none⟩) := by
  have hne : s ≠ [] := by intro h; rw [h] at hlen; simp at hlen
  simp only [InlandKs0061Content.tryFrom, INLAND_KS0061_MAX_CHARS_PER_LINE,
    INLAND_KS0061_MAX_CHARS_TOTAL, INLAND_KS0061_COLS, INLAND_KS0061_ROWS]
  rw [if_neg hne, find?_content_precheck_eq_none hval,
    if_neg (newline_not_mem hval)]
  rw [if_pos (by omega), inlandLine_tryFrom_ok hval (by omega)]

theorem ks0061_content_17 {s : List Char}
    (hval : ∀ c ∈ s, isDisplayChar c = true) (hlen : s.length = 17) :
    InlandKs0061Content.tryFrom s =
      some (.ok ⟨some ⟨s.take 16⟩, some ⟨s.drop 16⟩⟩) := by
  have hne : s ≠ [] := by intro h; rw [h] at hlen; simp at hlen
  simp only [InlandKs0061Content.tryFrom, INLAND_KS0061_MAX_CHARS_PER_LINE,
    INLAND_KS0061_MAX_CHARS_TOTAL, INLAND_KS0061_COLS, INLAND_KS0061_ROWS]
  rw [if_neg hne, find?_content_precheck_eq_none hval,
    if_neg (newline_not_mem hval)]
  rw [if_neg (by omega), if_pos (by omega),
    splitAtByteBoundary_of_ascii 16 (utf8Len_one_of_all_valid hval) (by omega)]
  have hv1 : ∀ c ∈ s.take 16, isDisplayChar c = true :=
    fun c hc => hval c (List.mem_of_mem_take hc)
  have hv2 : ∀ c ∈ s.drop 16, isDisplayChar c = true :=
    fun c hc => hval c (List.drop_subset 16 s hc)
  simp [inlandLine_tryFrom_ok hv1 (by simp [List.length_take]),
    inlandLine_tryFrom_ok hv2 (by simp [List.length_drop]; omega)]

theorem ks0061_content_33 {s : List Char}
    (hval : ∀ c ∈ s, isDisplayChar c = true) (hlen : s.length = 33) :
    InlandKs0061Content.tryFrom s =
      some (.error (.tooLong (preview s) 33 32)) := by
  have hne : s ≠ [] := by intro h; rw [h] at hlen; simp at hlen
  simp only [InlandKs0061Content.tryFrom, INLAND_KS0061_MAX_CHARS_PER_LINE,
    INLAND_KS0061_MAX_CHARS_TOTAL, INLAND_KS0061_COLS, INLAND_KS0061_ROWS]
  rw [if_neg hne, find?_content_precheck_eq_none hval,
    if_neg (newline_not_mem hval)]
  rw [if_neg (by omega), if_neg (by omega), hlen]

theorem lcd_content_16 {s : List Char}
    (hval : ∀ c ∈ s, isDisplayChar c = true) (hlen : s.length = 16) :
    LcdContent.tryFrom s = some (.ok ⟨some ⟨s⟩, none⟩) := by
  have hne : s ≠ [] := by intro h; rw [h] at hlen; simp at hlen
  have hb : byteLen s = s.length := byteLen_eq_length hval
  simp only [LcdContent.tryFrom]
  rw [if_neg hne, if_neg (newline_not_mem hval)]
  rw [if_pos (by omega), lcdString_tryFrom_ok hval (by omega)]

theorem lcd_content_17 {s : List Char}
    (hval : ∀ c ∈ s, isDisplayChar c = true) (hlen : s.length = 17) :
    LcdContent.tryFrom s = some (.ok ⟨some ⟨s.take 16⟩, some ⟨s.drop 16⟩⟩) := by
  have hne : s ≠ [] := by intro h; rw [h] at hlen; simp at hlen
  have hb : byteLen s = s.length := byteLen_eq_length hval
  simp only [LcdContent.tryFrom]
  rw [if_neg hne, if_neg (newline_not_mem hval)]
  rw [if_neg (by omega), if_pos (by omega),
    splitAtByteBoundary_of_ascii 16 (utf8Len_one_of_all_valid hval) (by omega)]
  have hv1 : ∀ c ∈ s.take 16, isDisplayChar c = true :=
    fun c hc => hval c (List.mem_of_mem_take hc)
  have hv2 : ∀ c ∈ s.drop 16, isDisplayChar c = true :=
    fun c hc => hval c (List.drop_subset 16 s hc)
  simp [lcdString_tryFrom_ok hv1 (by simp [List.length_take]),
    lcdString_tryFrom_ok hv2 (by simp [List.length_drop]; omega)]

theorem lcd_content_33 {s : List Char}
    (hval : ∀ c ∈ s, isDisplayChar c = true) (hlen : s.length = 33) :
    LcdContent.tryFrom s = some (.error (.tooLong (preview s) 33 32)) := by
  have hne : s ≠ [] := by intro h; rw [h] at hlen; simp at hlen
  have hb : byteLen s = s.length := byteLen_eq_length hval
  simp only [LcdContent.tryFrom]
  rw [if_neg hne, if_neg (newline_not_mem hval)]
  rw [if_neg (by omega), if_neg (by omega), hb, hlen]

theorem oledValidateLines_none_iff :
    ∀ (ls : List (List Char)) (i k : Nat), k ≤ INLAND_SH1106_MAX_TEXT_LINES →
      (oledValidateLines ls i k = none ↔
        k + ls.length ≤ INLAND_SH1106_MAX_TEXT_LINES ∧
          ∀ l ∈ ls, l.length ≤ INLAND_SH1106_MAX_CHARS_PER_LINE) := by
  intro ls
  induction ls with
  | nil =>
    intro i k hk
    simp [oledValidateLines, hk]
  | cons l rest ih =>
    intro i k hk
    rw [oledValidateLines]
    simp only [INLAND_SH1106_MAX_TEXT_LINES, INLAND_SH1106_MAX_CHARS_PER_LINE] at hk ⊢
    by_cases h1 : 10 < k + 1
    · rw [if_pos h1]
      simp only [List.length_cons]
      constructor
      · intro h; cases h
      · intro ⟨h, _⟩; omega
    · rw [if_neg h1]
      by_cases h2 : 32 < l.length
      · rw [if_pos h2]
        constructor
        · intro h; cases h
        · intro ⟨_, h⟩
          have := h l (by simp)
          omega
      · rw [if_neg h2]
        have := ih (i + 1) (k + 1) (by simpa [INLAND_SH1106_MAX_TEXT_LINES] using by omega)
        simp only [INLAND_SH1106_MAX_TEXT_LINES, INLAND_SH1106_MAX_CHARS_PER_LINE] at this
        rw [this]
        constructor
        · intro ⟨ha, hb⟩
          refine ⟨by simp [List.length_cons]; omega, ?_⟩
          intro x hx
          rcases List.mem_cons.mp hx with rfl | hx
          · omega
          · exact hb x hx
        · intro ⟨ha, hb⟩
          refine ⟨by simp [List.length_cons] at ha; omega, ?_⟩
          intro x hx
          exact hb x (List.mem_cons_of_mem _ hx)

theorem solveLoop_unfold (clock frame dq : Nat) :
    solveLoop clock frame dq =
      if iterTop clock frame dq ≤ 65535 ∨ 255 * 16 + 15 ≤ dq then
        (dq, iterTick clock dq, iterTop clock frame dq)
      else solveLoop clock frame (dq + 1) := by
  unfold solveLoop
  by_cases h : 4096 ≤ dq
  · have h0 : 4096 - dq = 0 := by omega
    rw [h0, solveLoopFuel, if_pos (Or.inr (by omega))]
  · have h1 : 4096 - dq = (4096 - (dq + 1)) + 1 := by omega
    rw [h1, solveLoopFuel]

theorem solveLoop_inv_aux (clock frame : Nat) :
    ∀ (n dq : Nat), 4096 - dq ≤ n →
      (solveLoop clock frame dq).2.1 = iterTick clock (solveLoop clock frame dq).1
      ∧ (solveLoop clock frame dq).2.2 = iterTop clock frame (solveLoop clock frame dq).1
      ∧ ((solveLoop clock frame dq).2.2 ≤ 65535 ∨
          255 * 16 + 15 ≤ (solveLoop clock frame dq).1)
      ∧ dq ≤ (solveLoop clock frame dq).1
      ∧ (∀ d, dq ≤ d → d < (solveLoop clock frame dq).1 →
          65535 < iterTop clock frame d ∧ d < 255 * 16 + 15) := by
  intro n
  induction n with
  | zero =>
    intro dq hdq
    rw [solveLoop_unfold, if_pos (Or.inr (by omega))]
    exact ⟨rfl, rfl, Or.inr (by omega), le_refl _, fun d h1 h2 => absurd h2 (by omega)⟩
  | succ n ih =>
    intro dq hdq
    rw [solveLoop_unfold]
    by_cases hc : iterTop clock frame dq ≤ 65535 ∨ 255 * 16 + 15 ≤ dq
    · rw [if_pos hc]
      exact ⟨rfl, rfl, hc, le_refl _, fun d h1 h2 => absurd h2 (by omega)⟩
    · rw [if_neg hc]
      push_neg at hc
      have h := ih (dq + 1) (by omega)
      refine ⟨h.1, h.2.1, h.2.2.1, le_trans (by omega) h.2.2.2.1, ?_⟩
      intro d h1 h2
      by_cases hd : d = dq
      · subst hd; exact ⟨hc.1, by omega⟩
      · exact h.2.2.2.2 d (by omega) h2

/-- Exit characterisation of the divider-search loop: the returned
`tick_hz` and `top` are those of the final divider (floor division
throughout), the exit condition holds there, and every divider value
passed over was bumped only because its `top` exceeded 65535 while the
divider was below its maximum. -/
theorem solveLoop_spec (clock frame dq : Nat) :
    (solveLoop clock frame dq).2.1 = iterTick clock (solveLoop clock frame dq).1
    ∧ (solveLoop clock frame dq).2.2 = iterTop clock frame (solveLoop clock frame dq).1
    ∧ ((solveLoop clock frame dq).2.2 ≤ 65535 ∨
        255 * 16 + 15 ≤ (solveLoop clock frame dq).1)
    ∧ dq ≤ (solveLoop clock frame dq).1
    ∧ (∀ d, dq ≤ d → d < (solveLoop clock frame dq).1 →
        65535 < iterTop clock frame d ∧ d < 255 * 16 + 15) :=
  solveLoop_inv_aux clock frame (4096 - dq) dq (le_refl _)

theorem newPrecomputed_top_eq (clock : Nat) (spec : ServoSpec) :
    (ServoConfig.newPrecomputed clock spec).top =
      min (solveLoop clock (max 1 spec.frame_us)
        (initialDividerQ4 clock (targetTickHz (max 1 spec.frame_us)))).2.2 65535 := rfl

theorem newPrecomputed_dividerBits_eq (clock : Nat) (spec : ServoSpec) :
    (ServoConfig.newPrecomputed clock spec).dividerBits =
      ((solveLoop clock (max 1 spec.frame_us)
          (initialDividerQ4 clock (targetTickHz (max 1 spec.frame_us)))).1 / 16 % 256) * 16
        + (solveLoop clock (max 1 spec.frame_us)
            (initialDividerQ4 clock (targetTickHz (max 1 spec.frame_us)))).1 % 16 := rfl

theorem initialDividerQ4_bounds (clock target : Nat) :
    16 ≤ initialDividerQ4 clock target ∧ initialDividerQ4 clock target ≤ 255 * 16 + 15 := by
  unfold initialDividerQ4
  omega

theorem solveLoop_result_bounds (clock frame dq : Nat)
    (h16 : 16 ≤ dq) (h4095 : dq ≤ 255 * 16 + 15) :
    16 ≤ (solveLoop clock frame dq).1
    ∧ (solveLoop clock frame dq).1 ≤ 255 * 16 + 15 := by
  have h := solveLoop_spec clock frame dq
  refine ⟨le_trans h16 h.2.2.2.1, ?_⟩
  by_contra hgt
  push_neg at hgt
  have := (h.2.2.2.2 (255 * 16 + 15) (by omega) (by omega)).2
  omega

theorem foldl_set_range {α : Type} (v : Nat → α) :
    ∀ (c : Nat) (b : List α) (p : Nat), p + c ≤ b.length →
      (List.range c).foldl (fun acc i => acc.set (p + i) (v i)) b =
        b.take p ++ (List.range c).map v ++ b.drop (p + c) := by
  intro c
  induction c with
  | zero =>
    intro b p h
    simp
  | succ n ih =>
    intro b p h
    rw [List.range_succ, List.foldl_append, ih b p (by omega)]
    simp only [List.foldl_cons, List.foldl_nil]
    have hlen1 : (b.take p).length = p := by rw [List.length_take]; omega
    have hlenAB : (b.take p ++ (List.range n).map v).length = p + n := by
      simp [hlen1]
    rw [List.append_assoc, List.set_append, hlen1]
    rw [if_neg (by omega)]
    have hpn : p + n - p = n := by omega
    rw [hpn]
    rw [List.set_append, List.length_map, List.length_range, if_neg (by omega),
      Nat.sub_self]
    simp only [List.range_succ, List.map_append, List.map_cons, List.map_nil,
      List.append_assoc, List.singleton_append, List.cons_append, List.nil_append]
    rw [List.drop_eq_getElem_cons (show p + n < b.length by omega)]
    simp [Nat.add_assoc]

/-- The retained entries of the ring, oldest first. -/
def retainedView (s : LogsState) : List (List Char) :=
  (List.range s.count).map
    (fun i => s.logs.getD ((s.head + i) % INLAND_SH1106_MAX_TEXT_LINES) [])

theorem renderLines_eq (s : LogsState) (hc : s.count ≤ 10) :
    s.renderLines = List.replicate (10 - s.count) [] ++ retainedView s := by
  unfold LogsState.renderLines retainedView INLAND_SH1106_MAX_TEXT_LINES
  rw [foldl_set_range (fun i => s.logs.getD ((s.head + i) % 10) []) s.count
    (List.replicate 10 []) (10 - s.count) (by simp; omega)]
  rw [List.take_replicate, List.drop_replicate]
  have h1 : (10 - s.count) ⊓ 10 = 10 - s.count := by omega
  have h2 : 10 - (10 - s.count + s.count) = 0 := by omega
  rw [h1, h2]
  simp

/-- Abstraction invariant tying a `LogsState` to the list of messages
pushed so far. -/
def RingInv (s : LogsState) (ms : List (List Char)) : Prop :=
  s.head < 10 ∧ s.count ≤ 10 ∧ s.logs.length = 10 ∧
    s.count = min ms.length 10 ∧
    retainedView s = (ms.map (fun m => m.take 32)).drop (ms.length - 10)

theorem ringInv_fresh : RingInv LogsState.fresh [] := by
  refine ⟨by decide, by decide, by decide, by decide, ?_⟩
  rfl

theorem ringInv_push {s : LogsState} {ms : List (List Char)}
    (h : RingInv s ms) (m : List Char) :
    RingInv (s.pushLog m) (ms ++ [m]) := by
  obtain ⟨hh, hc, hl, hcm, hr⟩ := h
  have hn : ms.length = ms.length := rfl
  unfold LogsState.pushLog INLAND_SH1106_MAX_TEXT_LINES INLAND_SH1106_MAX_CHARS_PER_LINE
  by_cases hlt : s.count < 10
  · rw [if_pos hlt]
    have hmslen : ms.length < 10 := by omega
    refine ⟨hh, by simp; omega, by simp [hl], by simp; omega, ?_⟩
    unfold retainedView INLAND_SH1106_MAX_TEXT_LINES
    simp only [List.range_succ, List.map_append, List.map_cons, List.map_nil]
    have hne : ∀ i ∈ List.range s.count,
        (s.logs.set ((s.head + s.count) % 10) (m.take 32)).getD ((s.head + i) % 10) [] =
          s.logs.getD ((s.head + i) % 10) [] := by
      intro i hi
      have hi' : i < s.count := List.mem_range.mp hi
      rw [List.getD_eq_getElem?_getD, List.getD_eq_getElem?_getD,
        List.getElem?_set_ne (by omega)]
    rw [List.map_congr_left hne]
    have hset : (s.logs.set ((s.head + s.count) % 10) (m.take 32)).getD
        ((s.head + s.count) % 10) [] = m.take 32 := by
      rw [List.getD_eq_getElem?_getD, List.getElem?_set_self (by rw [hl]; omega)]
      rfl
    rw [hset]
    unfold retainedView INLAND_SH1106_MAX_TEXT_LINES at hr
    rw [hr]
    have hd0 : ms.length - 10 = 0 := by omega
    have hd0' : (ms ++ [m]).length - 10 = 0 := by simp; omega
    rw [hd0', hd0]
    simp
  · rw [if_neg hlt]
    have hc10 : s.count = 10 := by omega
    have hms10 : 10 ≤ ms.length := by omega
    refine ⟨by simp; omega, by simp; omega, by simp [hl], by simp; omega, ?_⟩
    unfold retainedView INLAND_SH1106_MAX_TEXT_LINES
    simp only [hc10]
    have hsplit : List.range 10 = List.range 9 ++ [9] := by decide
    rw [hsplit, List.map_append, List.map_cons, List.map_nil]
    have hmod : ∀ i : Nat, ((s.head + 1) % 10 + i) % 10 = (s.head + 1 + i) % 10 := by
      intro i
      rw [Nat.mod_add_mod]
    have hg1 : ∀ i ∈ List.range 9,
        (s.logs.set s.head (m.take 32)).getD (((s.head + 1) % 10 + i) % 10) [] =
          s.logs.getD ((s.head + (i + 1)) % 10) [] := by
      intro i hi
      have hi' : i < 9 := List.mem_range.mp hi
      rw [hmod]
      have harg : s.head + 1 + i = s.head + (i + 1) := by omega
      rw [harg, List.getD_eq_getElem?_getD, List.getD_eq_getElem?_getD,
        List.getElem?_set_ne (by omega)]
    rw [List.map_congr_left hg1]
    have hg9 : (s.logs.set s.head (m.take 32)).getD (((s.head + 1) % 10 + 9) % 10) [] =
        m.take 32 := by
      rw [hmod]
      have harg : (s.head + 1 + 9) % 10 = s.head := by omega
      rw [harg, List.getD_eq_getElem?_getD, List.getElem?_set_self (by rw [hl]; omega)]
      rfl
    rw [hg9]
    unfold retainedView INLAND_SH1106_MAX_TEXT_LINES at hr
    rw [hc10] at hr
    have hdecomp : (List.range 10).map (fun i => s.logs.getD ((s.head + i) % 10) []) =
        s.logs.getD (s.head % 10) [] ::
          (List.range 9).map (fun i => s.logs.getD ((s.head + (i + 1)) % 10) []) := by
      rw [List.range_succ_eq_map]
      simp [Function.comp, Nat.succ_eq_add_one]
    rw [hdecomp] at hr
    have htail : (List.range 9).map (fun i => s.logs.getD ((s.head + (i + 1)) % 10) []) =
        ((ms.map (fun x => x.take 32)).drop (ms.length - 10)).tail := by
      rw [← hr]
      rfl
    rw [htail, List.tail_drop]
    have hd2 : ms.length - 10 + 1 = ms.length - 9 := by omega
    rw [hd2, List.map_append, List.drop_append_eq_append_drop]
    have hd1 : (ms ++ [m]).length - 10 = ms.length - 9 := by simp
    rw [hd1]
    have hd3 : ms.length - 9 - (List.map (fun x => List.take 32 x) ms).length = 0 := by
      simp
    rw [hd3]
    simp

theorem ringInv_foldl :
    ∀ (msgs acc : List (List Char)) (s : LogsState), RingInv s acc →
      RingInv (msgs.foldl (fun t m => t.pushLog m) s) (acc ++ msgs) := by
  intro msgs
  induction msgs with
  | nil =>
    intro acc s h
    simpa using h
  | cons m rest ih =>
    intro acc s h
    simp only [List.foldl_cons]
    have := ih (acc ++ [m]) (s.pushLog m) (ringInv_push h m)
    simpa [List.append_assoc] using this

theorem pushLog_lastRefresh (s : LogsState) (m : List Char) :
    (s.pushLog m).lastRefresh = s.lastRefresh := by
  unfold LogsState.pushLog
  split <;> rfl

theorem pushLog_dirty (s : LogsState) (m : List Char) :
    (s.pushLog m).dirty = s.dirty := by
  unfold LogsState.pushLog
  split <;> rfl

/-- A `log()` call made while the refresh interval since `last_refresh`
has not yet elapsed pushes the message and marks the state dirty but
performs no physical render. -/
theorem log_throttled {s : LogsState} {t0 : Nat} (h : s.lastRefresh = some t0)
    (m : List Char) (t : Nat) (ok : Bool)
    (ht : t < t0 + INLAND_SH1106_LOGS_REFRESH_INTERVAL_MS) :
    s.log m t ok = ({ s.pushLog m with dirty := true }, false) := by
  unfold LogsState.log LogsState.refreshIfDue
  have hlr : (s.pushLog m).lastRefresh = some t0 := by
    rw [pushLog_lastRefresh, h]
  simp [hlr, ht]

/-- A `log()` call on a never-refreshed state renders immediately; on
success the state becomes clean with `last_refresh = now`. -/
theorem log_renders_fresh {s : LogsState} (h : s.lastRefresh = none)
    (m : List Char) (t : Nat) :
    s.log m t true = ({ s.pushLog m with dirty := false, lastRefresh := some t }, true) := by
  unfold LogsState.log LogsState.refreshIfDue
  have hlr : (s.pushLog m).lastRefresh = none := by
    rw [pushLog_lastRefresh, h]
  simp [hlr]

/-! ## Claims -/

/-- C1: the claim states that the content-conversion entry points never
panic.  This theorem evaluates `LcdContent::try_from` at the input of
fifteen `'a'` followed by `'é'` (17 bytes, byte 16 inside the two-byte
`'é'`): the source slices `&value[0..16]` at a non-character-boundary
byte index and panics (`none`), while the KS0061 path rejects the same
input with a typed error. -/
theorem claim_C1_lcd_slice_panics :
    LcdContent.tryFrom (List.replicate 15 'a' ++ ['é']) = none
    ∧ InlandKs0061Content.tryFrom (List.replicate 15 'a' ++ ['é']) =
        some (.error (.containsInvalidCharacters (List.replicate 15 'a' ++ ['é']) 'é')) := by
  decide

/-- C2: the claim states that line validation decides `TooLong` by
character count.  This theorem evaluates the two validators at ten
copies of `'é'` (10 characters, 20 bytes): `LcdString::try_from`
measures the BYTE length and rejects it as `TooLong {20 > 16}`, while
`InlandKs0061Line::try_from` counts characters and instead reports the
invalid character. -/
theorem claim_C2_lcd_counts_bytes :
    LcdString.tryFrom (List.replicate 10 'é') =
      .error (.tooLong (List.replicate 10 'é') 20 16)
    ∧ (List.replicate 10 'é').length = 10
    ∧ InlandKs0061Line.tryFrom (List.replicate 10 'é') =
      .error (.containsInvalidCharacters (List.replicate 10 'é') 'é') := by
  decide

/-- C3 counterexample: a newline-free 33-character string is rejected
`LineTooLong` by the OLED `display_str`, while the LCD policy at
`ROWS = 10, COLS = 32` accepts it and wraps it at the column boundary —
so the OLED text path is not the LCD policy instantiated at 10×32. -/
theorem claim_C3_counterexample :
    (oledDisplayStrCheck (List.replicate 33 'a')).isOk = false
    ∧ oledDisplayStrCheck (List.replicate 33 'a') = .error (.lineTooLong 0 33 32)
    ∧ (specContentPolicy 10 32 (List.replicate 33 'a')).isOk = true
    ∧ specContentPolicy 10 32 (List.replicate 33 'a') =
        .ok [List.replicate 32 'a', List.replicate 1 'a'] := by
  decide

/-- C3 amended: the OLED `display_str` implements a line-based policy
of its own: it accepts exactly the inputs whose `split('\n')` segments
number at most 10 and each fit in 32 characters, and then displays
exactly those segments; it never wraps a long line at the column
boundary and performs no character-validity check. -/
theorem claim_C3_amended (content : List Char) :
    ((oledDisplayStrCheck content).isOk = true ↔
      ((splitNl content).length ≤ INLAND_SH1106_MAX_TEXT_LINES ∧
        ∀ l ∈ splitNl content, l.length ≤ INLAND_SH1106_MAX_CHARS_PER_LINE))
    ∧ (∀ lines, oledDisplayStrCheck content = .ok lines → lines = splitNl content) := by
  have h := oledValidateLines_none_iff (splitNl content) 0 0 (Nat.zero_le _)
  simp only [Nat.zero_add] at h
  constructor
  · constructor
    · intro hok
      unfold oledDisplayStrCheck at hok
      cases hv : oledValidateLines (splitNl content) 0 0 with
      | none =>
        rw [hv] at h
        exact h.mp rfl
      | some e =>
        rw [hv] at hok
        simp [Except.isOk, Except.toBool] at hok
    · intro hr
      unfold oledDisplayStrCheck
      rw [h.mpr hr]
      rfl
  · intro lines hl
    unfold oledDisplayStrCheck at hl
    cases hv : oledValidateLines (splitNl content) 0 0 with
    | none =>
      rw [hv] at hl
      injection hl with h'
      exact h'.symm
    | some e =>
      rw [hv] at hl
      simp at hl

theorem claim_C3_amended_witness :
    (oledDisplayStrCheck ['a']).isOk = true :=
  (claim_C3_amended ['a']).1.mpr (by decide)

/-- C4: for the 16-column two-row converters, a newline-free valid
16-character string yields `(Some 16-char line, None)`; a 17-character
string yields `(Some 16-char line, Some 1-char line)` split at column
16; a 33-character string fails `TooLong` reporting 33 against the
32-character total capacity.  Both the KS0061 converter and the
byte-counting `lcd.rs` converter agree on such all-ASCII inputs. -/
theorem claim_C4_splitter_boundaries (s : List Char)
    (hval : ∀ c ∈ s, isDisplayChar c = true) :
    (s.length = 16 →
      InlandKs0061Content.tryFrom s = some (.ok ⟨some ⟨s⟩, none⟩)
      ∧ LcdContent.tryFrom s = some (.ok ⟨some ⟨s⟩, none⟩))
    ∧ (s.length = 17 →
      InlandKs0061Content.tryFrom s = some (.ok ⟨some ⟨s.take 16⟩, some ⟨s.drop 16⟩⟩)
      ∧ LcdContent.tryFrom s = some (.ok ⟨some ⟨s.take 16⟩, some ⟨s.drop 16⟩⟩)
      ∧ (s.take 16).length = 16 ∧ (s.drop 16).length = 1)
    ∧ (s.length = 33 →
      InlandKs0061Content.tryFrom s = some (.error (.tooLong (preview s) 33 32))
      ∧ LcdContent.tryFrom s = some (.error (.tooLong (preview s) 33 32))) := by
  refine ⟨fun h => ⟨ks0061_content_16 hval h, lcd_content_16 hval h⟩,
    fun h => ⟨ks0061_content_17 hval h, lcd_content_17 hval h,
      by rw [List.length_take]; omega, by rw [List.length_drop]; omega⟩,
    fun h => ⟨ks0061_content_33 hval h, lcd_content_33 hval h⟩⟩

theorem claim_C4_splitter_boundaries_witness :
    InlandKs0061Content.tryFrom (List.replicate 16 'a') =
      some (.ok ⟨some ⟨List.replicate 16 'a'⟩, none⟩)
    ∧ InlandKs0061Content.tryFrom (List.replicate 33 'a') =
      some (.error (.tooLong (preview (List.replicate 33 'a')) 33 32)) :=
  ⟨((claim_C4_splitter_boundaries (List.replicate 16 'a') (by decide)).1 (by decide)).1,
    ((claim_C4_splitter_boundaries (List.replicate 33 'a') (by decide)).2.2 (by decide)).1⟩

/-- C5: pushing any sequence of messages (each at most 32 characters,
so the fire-and-forget truncation is the identity) into the fresh
ten-slot circular log buffer leaves exactly the last ten messages in
insertion order, and the rendered view has exactly ten slots:
`max(0, 10 − count)` leading empty lines followed by the retained
messages oldest-first. -/
theorem claim_C5_ring_buffer (msgs : List (List Char))
    (hm : ∀ m ∈ msgs, m.length ≤ 32) :
    (msgs.foldl (fun t m => t.pushLog m) LogsState.fresh).renderLines =
      List.replicate (10 - min msgs.length 10) [] ++ msgs.drop (msgs.length - 10)
    ∧ (msgs.foldl (fun t m => t.pushLog m) LogsState.fresh).renderLines.length = 10 := by
  have hinv := ringInv_foldl msgs [] LogsState.fresh ringInv_fresh
  rw [List.nil_append] at hinv
  obtain ⟨hh, hc, hl, hcm, hr⟩ := hinv
  have hmap : msgs.map (fun m => m.take 32) = msgs := by
    have hid : ∀ m ∈ msgs, m.take 32 = id m :=
      fun m hmem => List.take_of_length_le (hm m hmem)
    rw [List.map_congr_left hid, List.map_id]
  rw [renderLines_eq _ hc, hr, hmap, hcm]
  refine ⟨rfl, ?_⟩
  rw [List.length_append, List.length_replicate, List.length_drop]
  omega

theorem claim_C5_ring_buffer_witness :
    ((List.replicate 12 (['a'] : List Char)).foldl (fun t m => t.pushLog m)
        LogsState.fresh).renderLines =
      List.replicate (10 - min (List.replicate 12 (['a'] : List Char)).length 10) [] ++
        (List.replicate 12 (['a'] : List Char)).drop
          ((List.replicate 12 (['a'] : List Char)).length - 10)
    ∧ ((List.replicate 12 (['a'] : List Char)).foldl (fun t m => t.pushLog m)
        LogsState.fresh).renderLines.length = 10 :=
  claim_C5_ring_buffer (List.replicate 12 ['a']) (by decide)

/-- C6 counterexample: from a just-refreshed state (clean, refreshed at
time 0) two `log()` calls at 10 ms and 20 ms — both within the 75 ms
interval — cause ZERO physical render calls, not exactly one. -/
theorem claim_C6_counterexample :
    ((if (({ LogsState.fresh with lastRefresh := some 0 } : LogsState).log
          ['a'] 10 true).2 then (1 : Nat) else 0)
      + (if ((({ LogsState.fresh with lastRefresh := some 0 } : LogsState).log
            ['a'] 10 true).1.log ['b'] 20 true).2 then (1 : Nat) else 0)) ≠ 1 := by
  decide

/-- C6 amended: from a just-refreshed state, two `log()` calls within
the 75 ms interval of the last refresh cause zero physical renders;
from a never-refreshed state the first `log()` renders immediately and
a second within 75 ms of it is throttled, so exactly one render; a
non-forced refresh is a no-op when not dirty, or when the interval
since `last_refresh` has not elapsed; `flush()` renders whenever dirty,
regardless of elapsed time. -/
theorem claim_C6_amended :
    (∀ (s : LogsState) (t0 t1 t2 : Nat) (m1 m2 : List Char) (ok1 ok2 : Bool),
      s.lastRefresh = some t0 →
      t1 < t0 + INLAND_SH1106_LOGS_REFRESH_INTERVAL_MS →
      t2 < t0 + INLAND_SH1106_LOGS_REFRESH_INTERVAL_MS →
      (s.log m1 t1 ok1).2 = false ∧ ((s.log m1 t1 ok1).1.log m2 t2 ok2).2 = false)
    ∧ (∀ (s : LogsState) (t1 t2 : Nat) (m1 m2 : List Char) (ok2 : Bool),
      s.lastRefresh = none →
      t2 < t1 + INLAND_SH1106_LOGS_REFRESH_INTERVAL_MS →
      (s.log m1 t1 true).2 = true ∧ ((s.log m1 t1 true).1.log m2 t2 ok2).2 = false)
    ∧ (∀ (s : LogsState) (now : Nat) (ok : Bool),
      s.dirty = true → (s.flush now ok).2 = true)
    ∧ (∀ (s : LogsState) (now : Nat) (ok : Bool),
      s.dirty = false → s.refreshIfDue false now ok = (s, false))
    ∧ (∀ (s : LogsState) (t0 now : Nat) (ok : Bool),
      s.lastRefresh = some t0 → now < t0 + INLAND_SH1106_LOGS_REFRESH_INTERVAL_MS →
      s.refreshIfDue false now ok = (s, false)) := by
  refine ⟨?_, ?_, ?_, ?_, ?_⟩
  · intro s t0 t1 t2 m1 m2 ok1 ok2 h ht1 ht2
    have e1 := log_throttled h m1 t1 ok1 ht1
    have h2 : ((s.log m1 t1 ok1).1).lastRefresh = some t0 := by
      rw [e1]
      show (s.pushLog m1).lastRefresh = some t0
      rw [pushLog_lastRefresh, h]
    exact ⟨by rw [e1], by rw [log_throttled h2 m2 t2 ok2 ht2]⟩
  · intro s t1 t2 m1 m2 ok2 h ht2
    have e1 := log_renders_fresh h m1 t1
    have h2 : ((s.log m1 t1 true).1).lastRefresh = some t1 := by
      rw [e1]
    exact ⟨by rw [e1], by rw [log_throttled h2 m2 t2 ok2 ht2]⟩
  · intro s now ok hd
    unfold LogsState.flush LogsState.refreshIfDue
    cases ok <;> simp [hd]
  · intro s now ok hd
    unfold LogsState.refreshIfDue
    simp [hd]
  · intro s t0 now ok hd hlt
    unfold LogsState.refreshIfDue
    by_cases hdirty : s.dirty
    · simp [hdirty, hd, hlt]
    · simp [hdirty]

theorem claim_C6_amended_witness :
    ((({ LogsState.fresh with lastRefresh := some 0 } : LogsState).log
        ['a'] 10 true).2 = false
      ∧ (((({ LogsState.fresh with lastRefresh := some 0 } : LogsState)).log
          ['a'] 10 true).1.log ['b'] 20 true).2 = false)
    ∧ ((LogsState.fresh.log ['a'] 5 true).2 = true
      ∧ ((LogsState.fresh.log ['a'] 5 true).1.log ['b'] 30 true).2 = false)
    ∧ (({ LogsState.fresh with dirty := true } : LogsState).flush 200 true).2 = true
    ∧ LogsState.fresh.refreshIfDue false 3 true = (LogsState.fresh, false) :=
  ⟨claim_C6_amended.1 _ 0 10 20 ['a'] ['b'] true true rfl (by decide) (by decide),
    claim_C6_amended.2.1 _ 5 30 ['a'] ['b'] true rfl (by decide),
    claim_C6_amended.2.2.1 _ 200 true rfl,
    claim_C6_amended.2.2.2.1 _ 3 true rfl⟩

/-- C7: a throttled refresh whose physical render fails leaves the
whole component state unchanged (still dirty, `last_refresh` keeps its
prior value), so a later attempt retries; a refresh that does render
successfully clears `dirty` and sets `last_refresh` to the current
time. -/
theorem claim_C7_render_failure (s : LogsState) (force : Bool) (now : Nat) :
    (s.refreshIfDue force now false).1 = s
    ∧ ((s.refreshIfDue force now true).2 = true →
        (s.refreshIfDue force now true).1 =
          { s with dirty := false, lastRefresh := some now }) := by
  unfold LogsState.refreshIfDue
  constructor
  · by_cases hd : s.dirty <;>
      simp only [hd, Bool.not_true, Bool.not_false] <;>
      split_ifs <;> simp_all
  · by_cases hd : s.dirty <;>
      simp only [hd, Bool.not_true, Bool.not_false] <;>
      split_ifs <;> simp_all

theorem claim_C7_render_failure_witness :
    ((({ LogsState.fresh with dirty := true } : LogsState).refreshIfDue
        true 5 false).1 = { LogsState.fresh with dirty := true })
    ∧ (({ LogsState.fresh with dirty := true } : LogsState).refreshIfDue
        true 5 true).1 =
      { LogsState.fresh with dirty := false, lastRefresh := some 5 } :=
  ⟨(claim_C7_render_failure _ true 5).1,
    (claim_C7_render_failure _ true 5).2 (by decide)⟩

/-- C8: the PWM solver is a pure function of the clock and the spec
(bit-identical output for equal inputs), and for every clock frequency
and every spec its result satisfies `top ≤ 65535` and has a divider
integer part in `[1, 255]`. -/
theorem claim_C8_solver_bounds (clock : Nat) (spec : ServoSpec) :
    (∀ (clock' : Nat) (spec' : ServoSpec), clock' = clock → spec' = spec →
      ServoConfig.newPrecomputed clock' spec' = ServoConfig.newPrecomputed clock spec)
    ∧ (ServoConfig.newPrecomputed clock spec).top ≤ 65535
    ∧ 1 ≤ (ServoConfig.newPrecomputed clock spec).dividerBits / 16
    ∧ (ServoConfig.newPrecomputed clock spec).dividerBits / 16 ≤ 255 := by
  have hb := initialDividerQ4_bounds clock (targetTickHz (max 1 spec.frame_us))
  have hr := solveLoop_result_bounds clock (max 1 spec.frame_us)
    (initialDividerQ4 clock (targetTickHz (max 1 spec.frame_us))) hb.1 hb.2
  refine ⟨fun c s h1 h2 => by rw [h1, h2], ?_, ?_, ?_⟩
  · rw [newPrecomputed_top_eq]
    omega
  · rw [newPrecomputed_dividerBits_eq]
    omega
  · rw [newPrecomputed_dividerBits_eq]
    omega

theorem claim_C8_solver_bounds_witness :
    (ServoConfig.newPrecomputed 125000000 ⟨20000, 1000, 2000⟩).top ≤ 65535
    ∧ 1 ≤ (ServoConfig.newPrecomputed 125000000 ⟨20000, 1000, 2000⟩).dividerBits / 16
    ∧ (ServoConfig.newPrecomputed 125000000 ⟨20000, 1000, 2000⟩).dividerBits / 16 ≤ 255
    ∧ ServoConfig.newPrecomputed 125000000 ⟨20000, 1000, 2000⟩ =
        ServoConfig.newPrecomputed 125000000 ⟨20000, 1000, 2000⟩ :=
  ⟨(claim_C8_solver_bounds 125000000 ⟨20000, 1000, 2000⟩).2.1,
    (claim_C8_solver_bounds 125000000 ⟨20000, 1000, 2000⟩).2.2.1,
    (claim_C8_solver_bounds 125000000 ⟨20000, 1000, 2000⟩).2.2.2,
    (claim_C8_solver_bounds 125000000 ⟨20000, 1000, 2000⟩).1 _ _ rfl rfl⟩

/-- C9 counterexample: at `clock = 125 MHz` with a 100 ms frame the
solver settles at `divider_q4 = 3052`, `tick_hz = 655307`, and stores
`top = 65529 = floor(100000 * 655307 / 10^6) − 1`, whereas the claimed
round-to-nearest formula gives `65530` — the loop floors the tick
count, it does not round it. -/
theorem claim_C9_counterexample :
    (ServoConfig.newPrecomputed 125000000 ⟨100000, 1000, 2000⟩).tick_hz = 655307
    ∧ (ServoConfig.newPrecomputed 125000000 ⟨100000, 1000, 2000⟩).top = 65529
    ∧ specTopRound 100000 655307 = 65530
    ∧ (ServoConfig.newPrecomputed 125000000 ⟨100000, 1000, 2000⟩).top ≠
        specTopRound 100000
          (ServoConfig.newPrecomputed 125000000 ⟨100000, 1000, 2000⟩).tick_hz := by
  decide

/-- C9 amended: in each iteration of the divider search the period
register is derived with truncating (floor) division,
`top = floor(frame_us * tick_hz / 10^6) − 1` (saturating, cast to u32),
and the divider is bumped by one 1/16 step only while that `top`
exceeds 65535 and the divider is below its maximum `255 + 15/16`. -/
theorem claim_C9_amended (clock frame dq : Nat) :
    (solveLoop clock frame dq).2.1 = iterTick clock (solveLoop clock frame dq).1
    ∧ (solveLoop clock frame dq).2.2 = iterTop clock frame (solveLoop clock frame dq).1
    ∧ ((solveLoop clock frame dq).2.2 ≤ 65535 ∨
        255 * 16 + 15 ≤ (solveLoop clock frame dq).1)
    ∧ dq ≤ (solveLoop clock frame dq).1
    ∧ (∀ d, dq ≤ d → d < (solveLoop clock frame dq).1 →
        65535 < iterTop clock frame d ∧ d < 255 * 16 + 15) :=
  solveLoop_spec clock frame dq

theorem claim_C9_amended_witness :
    (solveLoop 125000000 100000 3052).2.2 =
      iterTop 125000000 100000 (solveLoop 125000000 100000 3052).1
    ∧ (solveLoop 125000000 100000 3052).2.2 ≤ 65535 ∨
        255 * 16 + 15 ≤ (solveLoop 125000000 100000 3052).1 :=
  Or.inl ⟨(claim_C9_amended 125000000 100000 3052).2.1,
    by decide⟩

end DarkPicoLib
